import Mathlib

/-!
Verification of the `arr!` array-comprehension macro of the `arrcomp` crate
(src/src/lib.rs) against its design specification.

The macro has three arms, in source order:

1. filtered:   `($ex:stmt, for $x:pat in $input:expr $(, if $cond:expr)+; len $len:expr)`
2. unfiltered: `($ex:stmt, for $x:pat in $input:expr; len $len:expr)`
3. placeholder: `(_, for $x:pat in $input:expr $(, if $cond:expr)*; len $len:expr)`

Arms 1 and 2 expand to
```
let mut iter = $input.into_iter();
if $input.len() != $len { panic!("Expected {} elements, got {}.", $len, $input.len()) }
std::array::from_fn::<_, $len, _>(|_| {
    let $x = iter.next().unwrap_or_default();
    (true $(&& $cond)*).then(|| {$ex})   -- arm 1; arm 2 is just `$ex`
})
```
and arm 3 expands to an unconditional panic.

The embedding below models the expansion's runtime behaviour together with an
explicit trace of evaluation events, so that evaluation-order properties
(body/predicate short-circuiting, double evaluation of the input expression,
cursor creation before the length check) are provable.  Panics are modelled as
`Except.error` carrying the panic message.  Rust's `Default` bound used by
`unwrap_or_default` is modelled by `Inhabited`.
-/

set_option autoImplicit false
set_option maxRecDepth 8192

namespace Arrcomp

variable {α β γ : Type}

/-- One evaluation event during the execution of an expanded `arr!` use site. -/
inductive Ev where
  /-- the `$input` expression is evaluated -/
  | evalInput : Ev
  /-- `into_iter()` creates the iteration cursor -/
  | createCursor : Ev
  /-- the `$input.len() != $len` check runs -/
  | lenCheck : Ev
  /-- `iter.next()` is called while filling `slot`; `exhausted` records whether
  it returned `None` (so that `unwrap_or_default` substituted the default) -/
  | next (slot : Nat) (exhausted : Bool) : Ev
  /-- the `k`-th `if` predicate is evaluated while filling `slot` -/
  | condEval (slot k : Nat) : Ev
  /-- the body `$ex` is evaluated while filling `slot` -/
  | bodyEval (slot : Nat) : Ev
  deriving DecidableEq, Repr

/-- The source iterable as the macro observes it: the sequence of elements its
iterator yields, and the length reported by its `len()` method.  For honest
sources (arrays, slices, ranges) `reportedLen = elems.length`, but the two are
kept separate so that behaviour on a lying `len()` is expressible. -/
structure Input (α : Type) where
  elems : List α
  reportedLen : Nat

/-- The value of `iter.next().unwrap_or_default()` at the `i`-th call: the
`i`-th source element, or the default once the iterator is exhausted. -/
def pullAt [Inhabited α] (elems : List α) (i : Nat) : α :=
  (elems[i]?).getD default

/-- `(true && $cond1 && $cond2 && ...)` evaluated against the bound value `x`:
Rust's `&&` evaluates the predicates left to right and short-circuits on the
first `false`.  Returns the combined result together with the trace of
predicate evaluations (`k` numbers the predicates, in declaration order). -/
def andConds (x : α) (slot : Nat) : List (α → Bool) → Nat → Bool × List Ev
  | [], _ => (true, [])
  | c :: rest, k =>
    if c x then
      let r := andConds x slot rest (k + 1)
      (r.1, Ev.condEval slot k :: r.2)
    else
      (false, [Ev.condEval slot k])

/-- Combined filter result without the trace: logical AND of all predicates. -/
def condsHold (conds : List (α → Bool)) (x : α) : Bool :=
  conds.all (fun c => c x)

/-- The closure passed to `std::array::from_fn` by the filtered arm, evaluated
at slot `i`: pull the next element (default on exhaustion), bind it, evaluate
the predicate chain with short-circuiting, and evaluate the body only when the
chain holds (`Bool.then` evaluates its closure only on `true`).  Returns the
slot's value and the events of evaluating the closure, in order. -/
def filteredStep [Inhabited α] (elems : List α) (conds : List (α → Bool))
    (ex : α → β) (i : Nat) : Option β × List Ev :=
  let pulled := elems[i]?
  let x := pulled.getD default
  let c := andConds x i conds 0
  if c.1 then
    (some (ex x), Ev.next i pulled.isNone :: c.2 ++ [Ev.bodyEval i])
  else
    (none, Ev.next i pulled.isNone :: c.2)

/-- The closure passed to `std::array::from_fn` by the unfiltered arm: pull the
next element (default on exhaustion), bind it, evaluate the body. -/
def unfilteredStep [Inhabited α] (elems : List α) (ex : α → β) (i : Nat) :
    β × List Ev :=
  let pulled := elems[i]?
  let x := pulled.getD default
  (ex x, [Ev.next i pulled.isNone, Ev.bodyEval i])

/-- `std::array::from_fn` calls its closure once per index in ascending order;
this models filling `n` remaining slots starting at index `i`, collecting the
slot values and concatenating the closures' event traces in order. -/
def fromFnLoop {σ : Type} (step : Nat → σ × List Ev) : Nat → Nat → List σ × List Ev
  | _, 0 => ([], [])
  | i, n + 1 =>
    let v := step i
    let r := fromFnLoop step (i + 1) n
    (v.1 :: r.1, v.2 ++ r.2)

/-- The panic message of the length check:
`format!("Expected {} elements, got {}.", $len, $input.len())`. -/
def mismatchMsg (len actual : Nat) : String :=
  "Expected " ++ toString len ++ " elements, got " ++ toString actual ++ "."

/-- The events preceding the construction loop in both the filtered and the
unfiltered arm: `$input` is evaluated and `into_iter()` creates the cursor,
then `$input` is evaluated a second time for `$input.len()` and the length
check runs. -/
def headerEvs : List Ev :=
  [Ev.evalInput, Ev.createCursor, Ev.evalInput, Ev.lenCheck]

/-- The filtered arm (`$ex:stmt, for $x:pat in $input:expr $(, if $cond:expr)+; len $len`):
create the cursor, check the reported length against `$len` (panicking with a
message naming both counts on mismatch), then fill all `$len` slots with
optional values. -/
def arrFilteredArm [Inhabited α] (inp : Input α) (conds : List (α → Bool))
    (ex : α → β) (len : Nat) : Except String (List (Option β)) × List Ev :=
  if inp.reportedLen ≠ len then
    (Except.error (mismatchMsg len inp.reportedLen), headerEvs)
  else
    let r := fromFnLoop (filteredStep inp.elems conds ex) 0 len
    (Except.ok r.1, headerEvs ++ r.2)

/-- The unfiltered arm (`$ex:stmt, for $x:pat in $input:expr; len $len`):
identical cursor creation and length check, then fill all `$len` slots with
the body's values directly. -/
def arrUnfilteredArm [Inhabited α] (inp : Input α) (ex : α → β) (len : Nat) :
    Except String (List β) × List Ev :=
  if inp.reportedLen ≠ len then
    (Except.error (mismatchMsg len inp.reportedLen), headerEvs)
  else
    let r := fromFnLoop (unfilteredStep inp.elems ex) 0 len
    (Except.ok r.1, headerEvs ++ r.2)

/-- The panic message of the placeholder arm. -/
def placeholderMsg : String :=
  "Comprehension cannot start with a placeholder ``_``"

/-- The body fragment of a specification: either an ordinary
statement/expression (modelled, together with the binding pattern, as a
function of the pulled element) or the placeholder `_`. -/
inductive Body (α β : Type) where
  | stmt (f : α → β) : Body α β
  | placeholder : Body α β

/-- One `arr!` use site: body, source iterable, `if` clauses, declared length.
The binding pattern is folded into the body and predicate functions. -/
structure Spec (α β : Type) where
  body : Body α β
  input : Input α
  conds : List (α → Bool)
  len : Nat

/-- The three macro arms (the spec's Shapes B, C and A respectively). -/
inductive Arm where
  | filtered : Arm
  | unfiltered : Arm
  | placeholderReject : Arm
  deriving DecidableEq, Repr

/-- The macro's arms in their source order: `macro_rules` tries the filtered
arm first, then the unfiltered arm, and the placeholder arm last. -/
def armOrder : List Arm :=
  [Arm.filtered, Arm.unfiltered, Arm.placeholderReject]

/-- Whether a specification matches an arm's pattern.  The `$ex:stmt` fragment
of the first two arms does not accept a bare `_` (the statement/expression
fragment specifiers do not match underscore expressions in the editions this
crate compiles under), so a placeholder body can only match the dedicated
placeholder arm.  The filtered arm requires at least one `if` clause
(`$(, if $cond:expr)+`); the placeholder arm accepts any number
(`$(, if $cond:expr)*`). -/
def armMatches (s : Spec α β) : Arm → Bool
  | Arm.filtered =>
    (match s.body with
     | Body.stmt _ => true
     | Body.placeholder => false) && !s.conds.isEmpty
  | Arm.unfiltered =>
    (match s.body with
     | Body.stmt _ => true
     | Body.placeholder => false) && s.conds.isEmpty
  | Arm.placeholderReject =>
    match s.body with
    | Body.stmt _ => false
    | Body.placeholder => true

/-- `macro_rules` dispatch: the first arm, in source order, whose pattern
matches the specification. -/
def dispatch (s : Spec α β) : Option Arm :=
  armOrder.find? (armMatches s)

/-- The two output shapes: a plain array (unfiltered) or an array of optionals
(filtered).  The shapes are never mixed. -/
inductive Output (β : Type) where
  | plain (a : List β) : Output β
  | optionalArr (a : List (Option β)) : Output β

/-- Number of slots of an output array. -/
def Output.size : Output β → Nat
  | Output.plain a => a.length
  | Output.optionalArr a => a.length

/-- The whole macro: the three arms in source order.  A statement body with at
least one `if` clause is taken by the filtered arm, a statement body with none
by the unfiltered arm, and a placeholder body falls through to the placeholder
arm, which panics immediately without touching `$input` (its expansion is just
the panic, so no event happens before it). -/
def arr [Inhabited α] (s : Spec α β) : Except String (Output β) × List Ev :=
  match s.body, s.conds with
  | Body.stmt f, _ :: _ =>
    let r := arrFilteredArm s.input s.conds f s.len
    (r.1.map Output.optionalArr, r.2)
  | Body.stmt f, [] =>
    let r := arrUnfilteredArm s.input f s.len
    (r.1.map Output.plain, r.2)
  | Body.placeholder, _ =>
    (Except.error placeholderMsg, [])

/-- Number of predicates the short-circuiting chain actually evaluates on the
bound value `x`: every predicate up to and including the first failing one,
all of them when none fails. -/
def numEval (x : α) : List (α → Bool) → Nat
  | [] => 0
  | c :: rest => if c x then numEval x rest + 1 else 1

/-- The `j`-th predicate of the chain evaluated at `x` (`true` out of range). -/
def condAt (conds : List (α → Bool)) (j : Nat) (x : α) : Bool :=
  match conds[j]? with
  | some c => c x
  | none => true

theorem andConds_fst (x : α) (slot : Nat) (conds : List (α → Bool)) (k : Nat) :
    (andConds x slot conds k).1 = condsHold conds x := by
  induction conds generalizing k with
  | nil => rfl
  | cons c rest ih =>
    cases hc : c x with
    | true => simp [andConds, hc, condsHold, List.all_cons, ih]
    | false => simp [andConds, hc, condsHold, List.all_cons]

theorem andConds_snd (x : α) (slot : Nat) (conds : List (α → Bool)) (k : Nat) :
    (andConds x slot conds k).2
      = (List.range (numEval x conds)).map (fun m => Ev.condEval slot (k + m)) := by
  induction conds generalizing k with
  | nil => rfl
  | cons c rest ih =>
    cases hc : c x with
    | true =>
      have hn : numEval x (c :: rest) = numEval x rest + 1 := by
        simp [numEval, hc]
      have hstep : (andConds x slot (c :: rest) k).2
          = Ev.condEval slot k :: (andConds x slot rest (k + 1)).2 := by
        simp [andConds, hc]
      have hfun : ((fun m => Ev.condEval slot (k + m)) ∘ Nat.succ)
          = fun m => Ev.condEval slot (k + 1 + m) := by
        funext m
        show Ev.condEval slot (k + (m + 1)) = Ev.condEval slot (k + 1 + m)
        rw [show k + (m + 1) = k + 1 + m from by omega]
      rw [hstep, hn, List.range_succ_eq_map, List.map_cons, List.map_map, ih (k + 1), hfun]
      rfl
    | false =>
      simp [andConds, hc, numEval, List.range_succ]

theorem lt_numEval_iff (x : α) (conds : List (α → Bool)) (k : Nat) :
    k < numEval x conds ↔ k < conds.length ∧ ∀ j, j < k → condAt conds j x = true := by
  induction conds generalizing k with
  | nil => simp [numEval]
  | cons c rest ih =>
    cases hc : c x with
    | true =>
      cases k with
      | zero => simp [numEval, hc]
      | succ k =>
        have hshift : (∀ j, j < k + 1 → condAt (c :: rest) j x = true)
            ↔ (∀ j, j < k → condAt rest j x = true) := by
          constructor
          · intro h j hj
            have hx := h (j + 1) (by omega)
            simpa [condAt] using hx
          · intro h j hj
            cases j with
            | zero => simp [condAt, hc]
            | succ j => simpa [condAt] using h j (by omega)
        have hn : numEval x (c :: rest) = numEval x rest + 1 := by
          simp [numEval, hc]
        rw [hn, hshift, List.length_cons]
        constructor
        · intro h
          have hk := (ih k).mp (by omega)
          exact ⟨by omega, hk.2⟩
        · rintro ⟨hlen, hall⟩
          have hk : k < numEval x rest := (ih k).mpr ⟨by omega, hall⟩
          omega
    | false =>
      cases k with
      | zero => simp [numEval, hc]
      | succ k =>
        constructor
        · intro h
          exact absurd h (by simp [numEval, hc])
        · rintro ⟨hlen, hall⟩
          have h0 : condAt (c :: rest) 0 x = true := hall 0 (by omega)
          simp [condAt, hc] at h0

theorem fromFnLoop_fst {σ : Type} (step : Nat → σ × List Ev) :
    ∀ (n i : Nat), (fromFnLoop step i n).1 = (List.range n).map (fun j => (step (i + j)).1) := by
  intro n
  induction n with
  | zero => intro i; rfl
  | succ n ih =>
    intro i
    have hfun : ((fun j => (step (i + j)).1) ∘ Nat.succ) = fun j => (step (i + 1 + j)).1 := by
      funext j
      show (step (i + (j + 1))).1 = (step (i + 1 + j)).1
      rw [show i + (j + 1) = i + 1 + j from by omega]
    show (step i).1 :: (fromFnLoop step (i + 1) n).1
        = (List.range (n + 1)).map fun j => (step (i + j)).1
    rw [List.range_succ_eq_map, List.map_cons, List.map_map, hfun, ih (i + 1)]
    rfl

theorem fromFnLoop_fst_length {σ : Type} (step : Nat → σ × List Ev) (n i : Nat) :
    (fromFnLoop step i n).1.length = n := by
  simp [fromFnLoop_fst]

theorem fromFnLoop_snd_mem {σ : Type} (step : Nat → σ × List Ev) (e : Ev) :
    ∀ (n i : Nat), e ∈ (fromFnLoop step i n).2 ↔ ∃ j, j < n ∧ e ∈ (step (i + j)).2 := by
  intro n
  induction n with
  | zero => intro i; simp [fromFnLoop]
  | succ n ih =>
    intro i
    simp only [fromFnLoop, List.mem_append, ih]
    constructor
    · rintro (h | ⟨j, hj, hm⟩)
      · exact ⟨0, by omega, by simpa using h⟩
      · exact ⟨j + 1, by omega, by
          have : i + 1 + j = i + (j + 1) := by omega
          simpa [this] using hm⟩
    · rintro ⟨j, hj, hm⟩
      cases j with
      | zero => exact Or.inl (by simpa using hm)
      | succ j =>
        refine Or.inr ⟨j, by omega, ?_⟩
        have : i + 1 + j = i + (j + 1) := by omega
        simpa [this] using hm

theorem pullAt_cons_succ [Inhabited α] (a : α) (S : List α) (i : Nat) :
    pullAt (a :: S) (i + 1) = pullAt S i := by
  simp [pullAt]

theorem pullAt_of_length_le [Inhabited α] (S : List α) (i : Nat) (h : S.length ≤ i) :
    pullAt S i = default := by
  simp [pullAt, List.getElem?_eq_none h]

theorem pullAt_of_lt [Inhabited α] (S : List α) (i : Nat) (h : i < S.length) :
    pullAt S i = S.get ⟨i, h⟩ := by
  simp [pullAt, List.getElem?_eq_getElem h]

theorem range_map_pullAt [Inhabited α] (g : α → γ) :
    ∀ (S : List α), (List.range S.length).map (fun j => g (pullAt S j)) = S.map g := by
  intro S
  induction S with
  | nil => rfl
  | cons a S ih =>
    have h1 : ((fun j => g (pullAt (a :: S) j)) ∘ Nat.succ) = fun j => g (pullAt S j) := by
      funext j
      simp [Function.comp, pullAt_cons_succ]
    simp only [List.length_cons, List.range_succ_eq_map, List.map_cons, List.map_map, h1, ih]
    simp [pullAt]

theorem getD_eq_pullAt [Inhabited α] (elems : List α) (i : Nat) :
    (elems[i]?).getD default = pullAt elems i := rfl

theorem filteredStep_fst [Inhabited α] (elems : List α) (conds : List (α → Bool))
    (ex : α → β) (i : Nat) :
    (filteredStep elems conds ex i).1
      = if condsHold conds (pullAt elems i) then some (ex (pullAt elems i)) else none := by
  cases h : condsHold conds (pullAt elems i) with
  | true => simp [filteredStep, getD_eq_pullAt, andConds_fst, h]
  | false => simp [filteredStep, getD_eq_pullAt, andConds_fst, h]

theorem bodyEval_mem_filteredStep [Inhabited α] (elems : List α) (conds : List (α → Bool))
    (ex : α → β) (i i' : Nat) :
    Ev.bodyEval i' ∈ (filteredStep elems conds ex i).2
      ↔ i' = i ∧ condsHold conds (pullAt elems i) = true := by
  cases h : condsHold conds (pullAt elems i) with
  | true => simp [filteredStep, getD_eq_pullAt, andConds_fst, andConds_snd, h]
  | false => simp [filteredStep, getD_eq_pullAt, andConds_fst, andConds_snd, h]

theorem condEval_mem_filteredStep [Inhabited α] (elems : List α) (conds : List (α → Bool))
    (ex : α → β) (i i' k : Nat) :
    Ev.condEval i' k ∈ (filteredStep elems conds ex i).2
      ↔ i' = i ∧ k < numEval (pullAt elems i) conds := by
  cases h : condsHold conds (pullAt elems i) with
  | true =>
    simp only [filteredStep, getD_eq_pullAt, andConds_fst, h, if_true, List.mem_cons,
      List.mem_append, andConds_snd, List.mem_map, List.mem_range, List.mem_singleton]
    constructor
    · rintro ((h1 | ⟨m, hm, h2⟩) | h3 | h4)
      · exact absurd h1 (by simp)
      · simp only [Ev.condEval.injEq] at h2
        exact ⟨h2.1.symm, by omega⟩
      · exact absurd h3 (by simp)
      · simp at h4
    · rintro ⟨rfl, hk⟩
      exact Or.inl (Or.inr ⟨k, hk, by simp⟩)
  | false =>
    simp only [filteredStep, getD_eq_pullAt, andConds_fst, h, Bool.false_eq_true, if_false,
      List.mem_cons, andConds_snd, List.mem_map, List.mem_range]
    constructor
    · rintro (h1 | ⟨m, hm, h2⟩)
      · exact absurd h1 (by simp)
      · simp only [Ev.condEval.injEq] at h2
        exact ⟨h2.1.symm, by omega⟩
    · rintro ⟨rfl, hk⟩
      exact Or.inr ⟨k, hk, by simp⟩

theorem next_mem_filteredStep [Inhabited α] (elems : List α) (conds : List (α → Bool))
    (ex : α → β) (i i' : Nat) (b : Bool) :
    Ev.next i' b ∈ (filteredStep elems conds ex i).2
      ↔ i' = i ∧ b = (elems[i]?).isNone := by
  cases h : condsHold conds (pullAt elems i) with
  | true => simp [filteredStep, getD_eq_pullAt, andConds_fst, andConds_snd, h, eq_comm]
  | false => simp [filteredStep, getD_eq_pullAt, andConds_fst, andConds_snd, h, eq_comm]

theorem unfilteredStep_fst [Inhabited α] (elems : List α) (ex : α → β) (i : Nat) :
    (unfilteredStep elems ex i).1 = ex (pullAt elems i) := rfl

theorem mem_unfilteredStep_snd [Inhabited α] (elems : List α) (ex : α → β) (i : Nat) (e : Ev) :
    e ∈ (unfilteredStep elems ex i).2
      ↔ e = Ev.next i (elems[i]?).isNone ∨ e = Ev.bodyEval i := by
  simp [unfilteredStep]

theorem arrFilteredArm_mismatch [Inhabited α] (inp : Input α) (conds : List (α → Bool))
    (ex : α → β) (len : Nat) (h : inp.reportedLen ≠ len) :
    arrFilteredArm inp conds ex len
      = (Except.error (mismatchMsg len inp.reportedLen), headerEvs) := by
  simp [arrFilteredArm, h]

theorem arrUnfilteredArm_mismatch [Inhabited α] (inp : Input α)
    (ex : α → β) (len : Nat) (h : inp.reportedLen ≠ len) :
    arrUnfilteredArm inp ex len
      = (Except.error (mismatchMsg len inp.reportedLen), headerEvs) := by
  simp [arrUnfilteredArm, h]

theorem arrFilteredArm_fst [Inhabited α] (inp : Input α) (conds : List (α → Bool))
    (ex : α → β) (len : Nat) (h : inp.reportedLen = len) :
    (arrFilteredArm inp conds ex len).1
      = Except.ok ((List.range len).map fun j =>
          if condsHold conds (pullAt inp.elems j) then some (ex (pullAt inp.elems j)) else none) := by
  simp [arrFilteredArm, h, fromFnLoop_fst, filteredStep_fst]

theorem arrUnfilteredArm_fst [Inhabited α] (inp : Input α)
    (ex : α → β) (len : Nat) (h : inp.reportedLen = len) :
    (arrUnfilteredArm inp ex len).1
      = Except.ok ((List.range len).map fun j => ex (pullAt inp.elems j)) := by
  simp [arrUnfilteredArm, h, fromFnLoop_fst, unfilteredStep_fst]

theorem arrFilteredArm_snd [Inhabited α] (inp : Input α) (conds : List (α → Bool))
    (ex : α → β) (len : Nat) (h : inp.reportedLen = len) (e : Ev) :
    e ∈ (arrFilteredArm inp conds ex len).2
      ↔ e ∈ headerEvs ∨ ∃ j, j < len ∧ e ∈ (filteredStep inp.elems conds ex j).2 := by
  simp [arrFilteredArm, h, fromFnLoop_snd_mem]

theorem arrUnfilteredArm_snd [Inhabited α] (inp : Input α)
    (ex : α → β) (len : Nat) (h : inp.reportedLen = len) (e : Ev) :
    e ∈ (arrUnfilteredArm inp ex len).2
      ↔ e ∈ headerEvs ∨ ∃ j, j < len ∧ e ∈ (unfilteredStep inp.elems ex j).2 := by
  simp [arrUnfilteredArm, h, fromFnLoop_snd_mem]

theorem range_map_get? (g : Nat → γ) (n i : Nat) (h : i < n) :
    ((List.range n).map g)[i]? = some (g i) := by
  simp [List.getElem?_map, List.getElem?_range h]

/-- C8: for every source sequence `S`, the unfiltered comprehension with the
identity body and the trivial binding pattern, declared length `len(S)`,
reproduces `S` element for element. -/
theorem identity_law [Inhabited α] (S : List α) :
    (arrUnfilteredArm ⟨S, S.length⟩ (fun x => x) S.length).1 = Except.ok S := by
  have h := arrUnfilteredArm_fst ⟨S, S.length⟩ (fun x => x) S.length rfl
  rw [h, range_map_pullAt (fun x => x) S, List.map_id']

/-- C4: a specification whose body is the placeholder marker always aborts,
for every source (empty or not), every declared length and any number of
filter predicates, with the message that a comprehension cannot start with a
placeholder; its trace is empty, so no cursor is created, no element is
pulled and no array is built. -/
theorem placeholder_rejected (α β : Type) [Inhabited α] (inp : Input α)
    (conds : List (α → Bool)) (len : Nat) :
    arr (⟨Body.placeholder, inp, conds, len⟩ : Spec α β)
      = (Except.error "Comprehension cannot start with a placeholder ``_``", []) := by
  cases conds <;> rfl

/-- C5 counterexample: the grammar matcher does not try Shape A (placeholder)
first — the placeholder arm is the last arm of the macro, not the first. -/
theorem arm_order_counterexample :
    ¬ armOrder = [Arm.placeholderReject, Arm.filtered, Arm.unfiltered] := by
  decide

/-- C5 (amended): the matcher tries Shape B (filtered) first, then Shape C
(unfiltered), then Shape A (placeholder); nevertheless a placeholder body,
with or without filter clauses, is dispatched to the rejection rule and never
to the filtered expansion, because a bare `_` does not match the `$ex:stmt`
fragment of the first two arms. -/
theorem arm_order_amended (α β : Type) (inp : Input α)
    (conds : List (α → Bool)) (len : Nat) :
    armOrder = [Arm.filtered, Arm.unfiltered, Arm.placeholderReject]
    ∧ dispatch (⟨Body.placeholder, inp, conds, len⟩ : Spec α β) = some Arm.placeholderReject
    ∧ dispatch (⟨Body.placeholder, inp, conds, len⟩ : Spec α β) ≠ some Arm.filtered := by
  refine ⟨rfl, rfl, ?_⟩
  rw [show dispatch (⟨Body.placeholder, inp, conds, len⟩ : Spec α β)
      = some Arm.placeholderReject from rfl]
  simp

/-- C2: for every valid (filtered or unfiltered) specification whose source
reports the declared length, the output array has exactly `len` slots,
whatever the filters do. -/
theorem output_length_eq_declared [Inhabited α] (f : α → β) (inp : Input α)
    (conds : List (α → Bool)) (len : Nat) (h : inp.reportedLen = len) :
    ∃ out, (arr ⟨Body.stmt f, inp, conds, len⟩).1 = Except.ok out ∧ out.size = len := by
  cases conds with
  | nil =>
    refine ⟨Output.plain ((List.range len).map fun j => f (pullAt inp.elems j)), ?_, ?_⟩
    · simp [arr, arrUnfilteredArm_fst inp f len h, Except.map]
    · simp [Output.size]
  | cons c cs =>
    refine ⟨Output.optionalArr ((List.range len).map fun j =>
        if condsHold (c :: cs) (pullAt inp.elems j) then some (f (pullAt inp.elems j))
        else none), ?_, ?_⟩
    · simp [arr, arrFilteredArm_fst inp (c :: cs) f len h, Except.map]
    · simp [Output.size]

/-- C3: every valid (filtered or unfiltered) specification whose source
reports a length different from the declared one aborts with a message naming
both counts; no array of any kind is returned, and the trace shows the check
ran exactly once, after the cursor was created but before it was ever
advanced. -/
theorem length_mismatch_aborts [Inhabited α] (f : α → β) (inp : Input α)
    (conds : List (α → Bool)) (len : Nat) (h : inp.reportedLen ≠ len) :
    (arr ⟨Body.stmt f, inp, conds, len⟩).1
        = Except.error ("Expected " ++ toString len ++ " elements, got "
            ++ toString inp.reportedLen ++ ".")
    ∧ (arr ⟨Body.stmt f, inp, conds, len⟩).2
        = [Ev.evalInput, Ev.createCursor, Ev.evalInput, Ev.lenCheck] := by
  cases conds with
  | nil => simp [arr, arrUnfilteredArm_mismatch inp f len h, mismatchMsg, headerEvs, Except.map]
  | cons c cs => simp [arr, arrFilteredArm_mismatch inp (c :: cs) f len h, mismatchMsg, headerEvs, Except.map]

theorem range_map_pullAt_fun [Inhabited α] (f : Nat → γ) (g : α → γ) (S : List α)
    (hf : ∀ j, f j = g (pullAt S j)) :
    (List.range S.length).map f = S.map g := by
  rw [show f = fun j => g (pullAt S j) from funext hf]
  exact range_map_pullAt g S

theorem arrFilteredArm_snd_eq [Inhabited α] (inp : Input α) (conds : List (α → Bool))
    (ex : α → β) (len : Nat) (h : inp.reportedLen = len) :
    (arrFilteredArm inp conds ex len).2
      = headerEvs ++ (fromFnLoop (filteredStep inp.elems conds ex) 0 len).2 := by
  simp [arrFilteredArm, h]

theorem arrUnfilteredArm_snd_eq [Inhabited α] (inp : Input α)
    (ex : α → β) (len : Nat) (h : inp.reportedLen = len) :
    (arrUnfilteredArm inp ex len).2
      = headerEvs ++ (fromFnLoop (unfilteredStep inp.elems ex) 0 len).2 := by
  simp [arrUnfilteredArm, h]

theorem evalInput_not_mem_filteredLoop [Inhabited α] (elems : List α)
    (conds : List (α → Bool)) (ex : α → β) (len : Nat) :
    Ev.evalInput ∉ (fromFnLoop (filteredStep elems conds ex) 0 len).2 := by
  intro hmem
  rw [fromFnLoop_snd_mem] at hmem
  obtain ⟨j, hj, hm⟩ := hmem
  cases h : condsHold conds (pullAt elems j) with
  | true => simp [filteredStep, getD_eq_pullAt, andConds_fst, andConds_snd, h] at hm
  | false => simp [filteredStep, getD_eq_pullAt, andConds_fst, andConds_snd, h] at hm

theorem evalInput_not_mem_unfilteredLoop [Inhabited α] (elems : List α)
    (ex : α → β) (len : Nat) :
    Ev.evalInput ∉ (fromFnLoop (unfilteredStep elems ex) 0 len).2 := by
  intro hmem
  rw [fromFnLoop_snd_mem] at hmem
  obtain ⟨j, hj, hm⟩ := hmem
  simp [unfilteredStep] at hm

/-- C1: for the filtered form with source `S` reporting its true length as the
declared length, body `f` and a single predicate `p`, the output at each index
`i` is `some (f (S[i]))` when `p (S[i])` holds and `none` otherwise, and when
the slot is absent the body is not evaluated for that slot. -/
theorem filter_equivalence [Inhabited α] (S : List α) (f : α → β) (p : α → Bool)
    (i : Nat) (hi : i < S.length) :
    (∃ out, (arrFilteredArm ⟨S, S.length⟩ [p] f S.length).1 = Except.ok out
        ∧ out[i]? = some (if p (S.get ⟨i, hi⟩) then some (f (S.get ⟨i, hi⟩)) else none))
    ∧ (p (S.get ⟨i, hi⟩) = false
        → Ev.bodyEval i ∉ (arrFilteredArm ⟨S, S.length⟩ [p] f S.length).2) := by
  have hpull : pullAt S i = S.get ⟨i, hi⟩ := pullAt_of_lt S i hi
  have hch : ∀ y : α, condsHold [p] y = p y := by
    simp [condsHold]
  constructor
  · refine ⟨_, arrFilteredArm_fst ⟨S, S.length⟩ [p] f S.length rfl, ?_⟩
    rw [range_map_get? _ S.length i hi]
    simp [hpull, hch]
  · intro hp hmem
    rw [arrFilteredArm_snd ⟨S, S.length⟩ [p] f S.length rfl] at hmem
    rcases hmem with hh | ⟨j, hj, hstep⟩
    · simp [headerEvs] at hh
    · rw [bodyEval_mem_filteredStep] at hstep
      obtain ⟨rfl, hcond⟩ := hstep
      simp only [hpull, hch, hp] at hcond
      exact Bool.false_ne_true hcond

/-- C6: for every filtered specification with at least one predicate, the
predicates are AND-combined and evaluated in declaration order with
short-circuiting — at each slot, predicate `k` is evaluated exactly when `k`
is in range and every earlier predicate held on that slot's bound value — and
the body is evaluated at a slot exactly when the whole chain holds there. -/
theorem filters_short_circuit [Inhabited α] (inp : Input α) (conds : List (α → Bool))
    (ex : α → β) (len i : Nat) (hlen : inp.reportedLen = len) (hk : conds ≠ [])
    (hi : i < len) :
    (∃ out, (arrFilteredArm inp conds ex len).1 = Except.ok out
        ∧ out[i]? = some (if condsHold conds (pullAt inp.elems i)
            then some (ex (pullAt inp.elems i)) else none))
    ∧ (∀ k, Ev.condEval i k ∈ (arrFilteredArm inp conds ex len).2
        ↔ k < conds.length ∧ ∀ j, j < k → condAt conds j (pullAt inp.elems i) = true)
    ∧ (Ev.bodyEval i ∈ (arrFilteredArm inp conds ex len).2
        ↔ condsHold conds (pullAt inp.elems i) = true) := by
  refine ⟨⟨_, arrFilteredArm_fst inp conds ex len hlen, ?_⟩, ?_, ?_⟩
  · rw [range_map_get? _ len i hi]
  · intro k
    rw [arrFilteredArm_snd inp conds ex len hlen]
    constructor
    · rintro (hh | ⟨j, hj, hstep⟩)
      · simp [headerEvs] at hh
      · rw [condEval_mem_filteredStep] at hstep
        obtain ⟨rfl, hnum⟩ := hstep
        exact (lt_numEval_iff (pullAt inp.elems i) conds k).mp hnum
    · intro hr
      refine Or.inr ⟨i, hi, ?_⟩
      rw [condEval_mem_filteredStep]
      exact ⟨rfl, (lt_numEval_iff (pullAt inp.elems i) conds k).mpr hr⟩
  · rw [arrFilteredArm_snd inp conds ex len hlen]
    constructor
    · rintro (hh | ⟨j, hj, hstep⟩)
      · simp [headerEvs] at hh
      · rw [bodyEval_mem_filteredStep] at hstep
        obtain ⟨rfl, hc⟩ := hstep
        exact hc
    · intro hc
      refine Or.inr ⟨i, hi, ?_⟩
      rw [bodyEval_mem_filteredStep]
      exact ⟨rfl, hc⟩

/-- C7: when the iterable yields fewer elements than the declared length but
reports the declared length, construction still succeeds (no fault), and every
slot beyond exhaustion is built from the type's default value substituted by
`unwrap_or_default`, in both arms. -/
theorem exhausted_slots_default [Inhabited α] (inp : Input α) (conds : List (α → Bool))
    (ex : α → β) (len i : Nat) (hlen : inp.reportedLen = len)
    (hexh : inp.elems.length ≤ i) (hi : i < len) :
    (∃ out, (arrUnfilteredArm inp ex len).1 = Except.ok out
        ∧ out[i]? = some (ex default))
    ∧ (∃ out, (arrFilteredArm inp conds ex len).1 = Except.ok out
        ∧ out[i]? = some (if condsHold conds default then some (ex default) else none)) := by
  have hd : pullAt inp.elems i = default := pullAt_of_length_le inp.elems i hexh
  constructor
  · refine ⟨_, arrUnfilteredArm_fst inp ex len hlen, ?_⟩
    rw [range_map_get? _ len i hi]
    simp [hd]
  · refine ⟨_, arrFilteredArm_fst inp conds ex len hlen, ?_⟩
    rw [range_map_get? _ len i hi]
    simp [hd]

/-- C9: in both valid forms the source expression is evaluated twice — once
for `into_iter()` and once for `len()` — with the cursor created before the
length check; on a mismatch the abort leaves the cursor created but never
advanced. -/
theorem input_evaluated_twice [Inhabited α] (f : α → β) (inp : Input α)
    (conds : List (α → Bool)) (len : Nat) :
    ((arr ⟨Body.stmt f, inp, conds, len⟩).2.count Ev.evalInput = 2
      ∧ (arr ⟨Body.stmt f, inp, conds, len⟩).2.take 4
          = [Ev.evalInput, Ev.createCursor, Ev.evalInput, Ev.lenCheck])
    ∧ (inp.reportedLen ≠ len →
        (arr ⟨Body.stmt f, inp, conds, len⟩).1 = Except.error (mismatchMsg len inp.reportedLen)
        ∧ Ev.createCursor ∈ (arr ⟨Body.stmt f, inp, conds, len⟩).2
        ∧ ∀ i b, Ev.next i b ∉ (arr ⟨Body.stmt f, inp, conds, len⟩).2) := by
  cases conds with
  | nil =>
    by_cases hl : inp.reportedLen = len
    · have hsnd : (arr ⟨Body.stmt f, inp, [], len⟩).2
          = headerEvs ++ (fromFnLoop (unfilteredStep inp.elems f) 0 len).2 := by
        simp [arr, arrUnfilteredArm_snd_eq inp f len hl]
      refine ⟨⟨?_, ?_⟩, fun hne => absurd hl hne⟩
      · rw [hsnd, List.count_append,
          List.count_eq_zero.mpr (evalInput_not_mem_unfilteredLoop inp.elems f len)]
        rfl
      · rw [hsnd]
        exact List.take_left' rfl
    · have harr : arr ⟨Body.stmt f, inp, [], len⟩
          = (Except.error (mismatchMsg len inp.reportedLen), headerEvs) := by
        simp [arr, arrUnfilteredArm_mismatch inp f len hl, Except.map]
      have h1 : (arr ⟨Body.stmt f, inp, [], len⟩).1
          = Except.error (mismatchMsg len inp.reportedLen) := by rw [harr]
      have h2 : (arr ⟨Body.stmt f, inp, [], len⟩).2 = headerEvs := by rw [harr]
      refine ⟨⟨by rw [h2]; decide, by rw [h2]; decide⟩, fun _ => ⟨h1, by rw [h2]; decide, ?_⟩⟩
      intro i b hmem
      rw [h2] at hmem
      simp [headerEvs] at hmem
  | cons c cs =>
    by_cases hl : inp.reportedLen = len
    · have hsnd : (arr ⟨Body.stmt f, inp, c :: cs, len⟩).2
          = headerEvs ++ (fromFnLoop (filteredStep inp.elems (c :: cs) f) 0 len).2 := by
        simp [arr, arrFilteredArm_snd_eq inp (c :: cs) f len hl]
      refine ⟨⟨?_, ?_⟩, fun hne => absurd hl hne⟩
      · rw [hsnd, List.count_append,
          List.count_eq_zero.mpr (evalInput_not_mem_filteredLoop inp.elems (c :: cs) f len)]
        rfl
      · rw [hsnd]
        exact List.take_left' rfl
    · have harr : arr ⟨Body.stmt f, inp, c :: cs, len⟩
          = (Except.error (mismatchMsg len inp.reportedLen), headerEvs) := by
        simp [arr, arrFilteredArm_mismatch inp (c :: cs) f len hl, Except.map]
      have h1 : (arr ⟨Body.stmt f, inp, c :: cs, len⟩).1
          = Except.error (mismatchMsg len inp.reportedLen) := by rw [harr]
      have h2 : (arr ⟨Body.stmt f, inp, c :: cs, len⟩).2 = headerEvs := by rw [harr]
      refine ⟨⟨by rw [h2]; decide, by rw [h2]; decide⟩, fun _ => ⟨h1, by rw [h2]; decide, ?_⟩⟩
      intro i b hmem
      rw [h2] at hmem
      simp [headerEvs] at hmem

/-- C10: when the source's reported length is accurate and equals the declared
length, the exhaustion branch is never taken in either loop — every cursor
advance yields a real element — and the outputs are exactly the maps over the
actual elements, so no default value influences the output. -/
theorem accurate_length_no_default [Inhabited α] (inp : Input α) (conds : List (α → Bool))
    (ex : α → β) (len : Nat) (hacc : inp.elems.length = inp.reportedLen)
    (hlen : inp.reportedLen = len) :
    (∀ i, Ev.next i true ∉ (arrUnfilteredArm inp ex len).2)
    ∧ (∀ i, Ev.next i true ∉ (arrFilteredArm inp conds ex len).2)
    ∧ (arrUnfilteredArm inp ex len).1 = Except.ok (inp.elems.map ex)
    ∧ (arrFilteredArm inp conds ex len).1
        = Except.ok (inp.elems.map fun x => if condsHold conds x then some (ex x) else none) := by
  have hlen2 : inp.elems.length = len := hacc.trans hlen
  have hnotexh : ∀ j, j < len → (inp.elems[j]?).isNone = false := by
    intro j hj
    have hjl : j < inp.elems.length := by omega
    simp [List.getElem?_eq_getElem hjl]
  refine ⟨?_, ?_, ?_, ?_⟩
  · intro i hmem
    rw [arrUnfilteredArm_snd inp ex len hlen] at hmem
    rcases hmem with hh | ⟨j, hj, hstep⟩
    · simp [headerEvs] at hh
    · rw [mem_unfilteredStep_snd] at hstep
      rcases hstep with hn | hb
      · have := (Ev.next.injEq _ _ _ _).mp hn
        rw [hnotexh j hj] at this
        exact absurd this.2 (by decide)
      · simp at hb
  · intro i hmem
    rw [arrFilteredArm_snd inp conds ex len hlen] at hmem
    rcases hmem with hh | ⟨j, hj, hstep⟩
    · simp [headerEvs] at hh
    · rw [next_mem_filteredStep] at hstep
      rw [hnotexh j hj] at hstep
      exact absurd hstep.2 (by decide)
  · rw [arrUnfilteredArm_fst inp ex len hlen, ← hlen2,
      range_map_pullAt_fun _ ex inp.elems (fun j => rfl)]
  · rw [arrFilteredArm_fst inp conds ex len hlen, ← hlen2,
      range_map_pullAt_fun _ (fun x => if condsHold conds x then some (ex x) else none)
        inp.elems (fun j => rfl)]

/-- Witness for C1 at `S = [3, 4]`, body `x + 1`, predicate `x % 2 == 0`,
slot `0` (the predicate fails on `3`, so the slot is absent and the body is
not evaluated there). -/
theorem filter_equivalence_witness :
    (∃ out, (arrFilteredArm ⟨[3, 4], 2⟩ [fun x : Nat => decide (x % 2 = 0)]
          (fun x => x + 1) 2).1 = Except.ok out
        ∧ out[0]? = some none)
    ∧ Ev.bodyEval 0 ∉ (arrFilteredArm ⟨[3, 4], 2⟩ [fun x : Nat => decide (x % 2 = 0)]
        (fun x => x + 1) 2).2 :=
  ⟨(filter_equivalence [3, 4] (fun x => x + 1) (fun x => decide (x % 2 = 0)) 0 (by decide)).1,
   (filter_equivalence [3, 4] (fun x => x + 1) (fun x => decide (x % 2 = 0)) 0 (by decide)).2
     (by decide)⟩

/-- Witness for C2 at body `x + 1`, source `[1, 2, 3]` reporting `3`, no
filters, declared length `3`. -/
theorem output_length_eq_declared_witness :
    ∃ out, (arr ⟨Body.stmt (fun x : Nat => x + 1), ⟨[1, 2, 3], 3⟩, [], 3⟩).1 = Except.ok out
      ∧ out.size = 3 :=
  output_length_eq_declared (fun x => x + 1) ⟨[1, 2, 3], 3⟩ [] 3 rfl

/-- Witness for C3 at a source reporting `2` elements against declared length
`3`: the result is the mismatch panic naming both counts and the trace stops
at the length check. -/
theorem length_mismatch_aborts_witness :
    (arr ⟨Body.stmt (fun x : Nat => x), ⟨[1, 2], 2⟩, [], 3⟩).1
        = Except.error ("Expected " ++ toString 3 ++ " elements, got " ++ toString 2 ++ ".")
    ∧ (arr ⟨Body.stmt (fun x : Nat => x), ⟨[1, 2], 2⟩, [], 3⟩).2
        = [Ev.evalInput, Ev.createCursor, Ev.evalInput, Ev.lenCheck] :=
  length_mismatch_aborts (fun x => x) ⟨[1, 2], 2⟩ [] 3 (by decide)

/-- Witness for C6 at source `[2, 3]`, predicates `x % 2 == 0` and `x > 5`,
slot `0` (bound value `2`): the first predicate holds so both predicates are
evaluated, the chain fails, the slot is absent and the body never runs. -/
theorem filters_short_circuit_witness :
    (∃ out, (arrFilteredArm ⟨[2, 3], 2⟩ [fun x : Nat => decide (x % 2 = 0), fun x => decide (x > 5)]
          (fun x => x + 1) 2).1 = Except.ok out
        ∧ out[0]? = some none)
    ∧ Ev.condEval 0 0 ∈ (arrFilteredArm ⟨[2, 3], 2⟩
        [fun x : Nat => decide (x % 2 = 0), fun x => decide (x > 5)] (fun x => x + 1) 2).2
    ∧ Ev.condEval 0 1 ∈ (arrFilteredArm ⟨[2, 3], 2⟩
        [fun x : Nat => decide (x % 2 = 0), fun x => decide (x > 5)] (fun x => x + 1) 2).2
    ∧ Ev.bodyEval 0 ∉ (arrFilteredArm ⟨[2, 3], 2⟩
        [fun x : Nat => decide (x % 2 = 0), fun x => decide (x > 5)] (fun x => x + 1) 2).2 := by
  have h6 := filters_short_circuit ⟨[2, 3], 2⟩
      [fun x : Nat => decide (x % 2 = 0), fun x => decide (x > 5)] (fun x => x + 1) 2 0 rfl
      (List.cons_ne_nil _ _) (by decide)
  exact ⟨h6.1, (h6.2.1 0).mpr (by decide), (h6.2.1 1).mpr (by decide),
    fun h => absurd (h6.2.2.mp h) (by decide)⟩

/-- Witness for C7 at a source yielding one element but reporting `3`, with
declared length `3`: slot `2` lies beyond exhaustion and is built from the
default `0`, with no fault in either arm. -/
theorem exhausted_slots_default_witness :
    (∃ out, (arrUnfilteredArm ⟨[5], 3⟩ (fun x : Nat => x + 1) 3).1 = Except.ok out
        ∧ out[2]? = some 1)
    ∧ (∃ out, (arrFilteredArm ⟨[5], 3⟩ [fun x : Nat => decide (x = 0)]
          (fun x => x + 1) 3).1 = Except.ok out
        ∧ out[2]? = some (some 1)) :=
  exhausted_slots_default ⟨[5], 3⟩ [fun x => decide (x = 0)] (fun x => x + 1) 3 2 rfl
    (by decide) (by decide)

/-- Witness for C9 at a source reporting `2` against declared length `3`: the
trace shows two input evaluations and the cursor created before the single
length check, and the mismatch abort happens with nothing ever pulled. -/
theorem input_evaluated_twice_witness :
    ((arr ⟨Body.stmt (fun x : Nat => x + 1), ⟨[1, 2], 2⟩, [], 3⟩).2.count Ev.evalInput = 2
      ∧ (arr ⟨Body.stmt (fun x : Nat => x + 1), ⟨[1, 2], 2⟩, [], 3⟩).2.take 4
          = [Ev.evalInput, Ev.createCursor, Ev.evalInput, Ev.lenCheck])
    ∧ ((arr ⟨Body.stmt (fun x : Nat => x + 1), ⟨[1, 2], 2⟩, [], 3⟩).1
          = Except.error (mismatchMsg 3 2)
      ∧ Ev.createCursor ∈ (arr ⟨Body.stmt (fun x : Nat => x + 1), ⟨[1, 2], 2⟩, [], 3⟩).2
      ∧ Ev.next 0 false ∉ (arr ⟨Body.stmt (fun x : Nat => x + 1), ⟨[1, 2], 2⟩, [], 3⟩).2) := by
  have h9 := input_evaluated_twice (fun x : Nat => x + 1) ⟨[1, 2], 2⟩ [] 3
  have hm := h9.2 (by decide)
  exact ⟨h9.1, hm.1, hm.2.1, hm.2.2 0 false⟩

/-- Witness for C10 at the honest source `[1, 2]` with declared length `2`:
no exhausted pull happens and both outputs are the maps over the real
elements. -/
theorem accurate_length_no_default_witness :
    Ev.next 0 true ∉ (arrUnfilteredArm ⟨[1, 2], 2⟩ (fun x : Nat => x + 1) 2).2
    ∧ Ev.next 1 true ∉ (arrFilteredArm ⟨[1, 2], 2⟩ [fun x : Nat => decide (x % 2 = 0)]
        (fun x => x + 1) 2).2
    ∧ (arrUnfilteredArm ⟨[1, 2], 2⟩ (fun x : Nat => x + 1) 2).1 = Except.ok [2, 3]
    ∧ (arrFilteredArm ⟨[1, 2], 2⟩ [fun x : Nat => decide (x % 2 = 0)]
        (fun x => x + 1) 2).1 = Except.ok [none, some 3] := by
  have h10 := accurate_length_no_default ⟨[1, 2], 2⟩ [fun x => decide (x % 2 = 0)]
      (fun x => x + 1) 2 rfl rfl
  exact ⟨h10.1 0, h10.2.1 1, h10.2.2.1, h10.2.2.2⟩

/-- Witness for C4 at a concrete two-element source with no filters. -/
theorem placeholder_rejected_witness :
    arr (⟨Body.placeholder, ⟨[1, 2], 2⟩, [], 2⟩ : Spec Nat Nat)
      = (Except.error "Comprehension cannot start with a placeholder ``_``", []) :=
  placeholder_rejected Nat Nat ⟨[1, 2], 2⟩ [] 2

/-- Witness for C5 (amended) at a concrete placeholder specification. -/
theorem arm_order_amended_witness :
    armOrder = [Arm.filtered, Arm.unfiltered, Arm.placeholderReject]
    ∧ dispatch (⟨Body.placeholder, ⟨[1], 1⟩, [], 1⟩ : Spec Nat Nat) = some Arm.placeholderReject
    ∧ dispatch (⟨Body.placeholder, ⟨[1], 1⟩, [], 1⟩ : Spec Nat Nat) ≠ some Arm.filtered :=
  arm_order_amended Nat Nat ⟨[1], 1⟩ [] 1

/-- Witness for C8 at the spec's concrete scenario source `[0, 99, -2, 5, 9]`. -/
theorem identity_law_witness :
    (arrUnfilteredArm ⟨[0, 99, -2, 5, 9], 5⟩ (fun x : Int => x) 5).1
      = Except.ok [0, 99, -2, 5, 9] :=
  identity_law [0, 99, -2, 5, 9]

end Arrcomp
